import Mathlib

/-!
Verification of the rusty-processing pipeline against its specification.

Bytes are modelled as `Nat`, byte buffers as `List Nat`, and a reader as the
list of (nonempty) chunks its successive `read` calls deliver.  External
collaborators (the MD5 digest, the mail parser's Message-ID extraction, the
Tika analysis service, the HTML→PDF renderer) are parameters of the
definitions that call them, so every theorem quantifies over them.
-/

namespace RustyProcessing

/-- The `bytesize::MB` constant (10^6 bytes), the buffer size used throughout
`identify/src/deduplication.rs`, `services/src/archive_builder.rs` and
`processing/src/io/mod.rs`. -/
def MB : Nat := 1000000

/-- Bytes of a string literal (each char as its code point; all inputs used
here are ASCII). -/
def strBytes (s : String) : List Nat :=
  s.data.map (fun c => c.toNat)

/-- The freshly zero-initialised read buffer `[0; MB as usize]`. -/
def buffer0 : List Nat := List.replicate MB 0

/-- Successive chunks delivered by reading a `Cursor` over `B` with a buffer of
`MB` bytes: each read returns `min (remaining, MB)` bytes.  The fuel is the
total length, enough because every read before EOF delivers at least one
byte. -/
def cursorChunksAux : Nat → List Nat → List (List Nat)
  | 0, _ => []
  | _ + 1, [] => []
  | fuel + 1, b :: bs => ((b :: bs).take MB) :: cursorChunksAux fuel ((b :: bs).drop MB)

/-- Chunking of the byte vector `B` as a `Cursor` reader delivers it. -/
def cursorChunks (B : List Nat) : List (List Nat) :=
  cursorChunksAux B.length B

/-- The byte sequence fed to the MD5 context by `dedupe_md5`
(`identify/src/deduplication.rs:39`).  The loop is
`while content.read(buf).await? > 0 { ctx.consume(buf.deref()); }`:
each read overwrites the first `chunk.length` bytes of the reused 1 MB buffer
and the context consumes the ENTIRE buffer, stale tail included.  `buf` is the
current buffer contents (initially `buffer0`). -/
def dedupeMd5Bytes : List (List Nat) → List Nat → List Nat
  | [], _ => []
  | c :: cs, buf =>
    let buf' := c ++ buf.drop c.length
    buf' ++ dedupeMd5Bytes cs buf'

/-- `dedupe_md5` (`identify/src/deduplication.rs:39-48`), parameterised by the
MD5 digest-to-hex function `h` (the `md5` crate: `format!("{:x}", ctx.compute())`
applied to the consumed byte sequence). -/
def dedupe_md5 (h : List Nat → String) (chunks : List (List Nat)) : String :=
  h (dedupeMd5Bytes chunks buffer0)

/-- `dedupe_message` (`identify/src/deduplication.rs:53-70`): read the whole
content, extract the raw Message-ID bytes via the mail parser (parameter
`parseMsgId`, modelling `MessageParser::default().parse(&buf)` followed by
`message_id().as_bytes()`), then run `dedupe_md5` over a `Cursor` of either
the id bytes or the whole content. -/
def dedupe_message (h : List Nat → String) (parseMsgId : List Nat → Option (List Nat))
    (chunks : List (List Nat)) : String :=
  let buf := chunks.flatten
  match parseMsgId buf with
  | some rawId => dedupe_md5 h (cursorChunks rawId)
  | none => dedupe_md5 h (cursorChunks buf)

/-- `dedupe_checksum` (`identify/src/deduplication.rs:23-33`). -/
def dedupe_checksum (h : List Nat → String) (parseMsgId : List Nat → Option (List Nat))
    (chunks : List (List Nat)) (mimetype : String) : String :=
  match mimetype with
  | "message/rfc822" => dedupe_message h parseMsgId chunks
  | _ => dedupe_md5 h chunks

/-- The bytes of `"Hello, world!"`, the repository's own `dedupe_checksum`
test input. -/
def helloBytes : List Nat := strBytes "Hello, world!"

/-- The raw Message-ID bytes of the repository's rfc822 test message. -/
def msgIdBytes : List Nat := strBytes "1449186.1075855697095.JavaMail.evans@thyme"

theorem cursorChunksAux_nil (fuel : Nat) : cursorChunksAux fuel [] = [] := by
  cases fuel <;> rfl

theorem cursorChunks_single (c : List Nat) (hne : c ≠ []) (hle : c.length ≤ MB) :
    cursorChunks c = [c] := by
  match c, hne with
  | b :: bs, _ =>
    show cursorChunksAux (bs.length + 1) (b :: bs) = [b :: bs]
    rw [cursorChunksAux]
    rw [List.take_of_length_le hle, List.drop_eq_nil_of_le hle, cursorChunksAux_nil]

theorem dedupeMd5Bytes_single (c buf : List Nat) :
    dedupeMd5Bytes [c] buf = c ++ buf.drop c.length := by
  simp [dedupeMd5Bytes]

theorem dedupeMd5Bytes_small_chunk (c : List Nat) (hne : c ≠ []) (hle : c.length ≤ MB) :
    dedupeMd5Bytes (cursorChunks c) buffer0 = c ++ List.replicate (MB - c.length) 0 := by
  rw [cursorChunks_single c hne hle, dedupeMd5Bytes_single, buffer0, List.drop_replicate]

theorem dedupeMd5Bytes_length (cs : List (List Nat)) (buf : List Nat)
    (hbuf : buf.length = MB) (hcs : ∀ c ∈ cs, c.length ≤ MB) :
    (dedupeMd5Bytes cs buf).length = cs.length * MB := by
  induction cs generalizing buf with
  | nil => simp [dedupeMd5Bytes]
  | cons c cs ih =>
    have hc : c.length ≤ MB := hcs c (by simp)
    have hbuf' : (c ++ buf.drop c.length).length = MB := by
      rw [List.length_append, List.length_drop, hbuf]
      omega
    have hrest := ih (c ++ buf.drop c.length) hbuf' (fun d hd => hcs d (by simp [hd]))
    show ((c ++ buf.drop c.length) ++ dedupeMd5Bytes cs (c ++ buf.drop c.length)).length = _
    rw [List.length_append, hbuf', hrest, List.length_cons]
    ring

/-- C1: the claim says the fingerprint is the MD5 digest of exactly the input
bytes `B` (resp. of exactly the raw Message-ID bytes `X` for rfc822).  The
code instead consumes the whole 1 MB read buffer after every read, so the
byte sequence fed to MD5 is `B` (resp. `X`) zero-padded to 1,000,000 bytes —
a different byte string whenever `0 < |B| < MB`.  Evaluated at the
repository's own test input "Hello, world!" and at its rfc822 test
Message-ID. -/
theorem dedupe_digest_input_is_padded_buffer :
    (∀ h parseMsgId,
      dedupe_checksum h parseMsgId (cursorChunks helloBytes) "application/octet-stream"
        = h (helloBytes ++ List.replicate 999987 0))
    ∧ (∀ h chunks,
      dedupe_checksum h (fun _ => some msgIdBytes) chunks "message/rfc822"
        = h (msgIdBytes ++ List.replicate 999958 0))
    ∧ helloBytes ++ List.replicate 999987 0 ≠ helloBytes := by
  refine ⟨?_, ?_, ?_⟩
  · intro h parseMsgId
    have h1 : dedupe_checksum h parseMsgId (cursorChunks helloBytes) "application/octet-stream"
        = dedupe_md5 h (cursorChunks helloBytes) := rfl
    have h2 : MB - helloBytes.length = 999987 := by decide
    rw [h1, dedupe_md5, dedupeMd5Bytes_small_chunk helloBytes (by decide) (by decide), h2]
  · intro h chunks
    have h1 : dedupe_checksum h (fun _ => some msgIdBytes) chunks "message/rfc822"
        = dedupe_md5 h (cursorChunks msgIdBytes) := rfl
    have h2 : MB - msgIdBytes.length = 999958 := by decide
    rw [h1, dedupe_md5, dedupeMd5Bytes_small_chunk msgIdBytes (by decide) (by decide), h2]
  · intro hEq
    have hlen := congrArg List.length hEq
    simp only [List.length_append, List.length_replicate] at hlen
    omega

/-- C3: the claim says the fingerprint only depends on the delivered bytes,
not on how the reader partitions them across read calls.  Because
`dedupe_md5` consumes the whole reused 1 MB buffer after every read, the byte
sequence fed to MD5 does depend on the partition: the same two bytes
delivered as one read or as two reads produce MD5 inputs of different lengths
(1,000,000 vs 2,000,000 bytes). -/
theorem dedupe_checksum_depends_on_read_partition :
    ([[97, 98]] : List (List Nat)).flatten = ([[97], [98]] : List (List Nat)).flatten
    ∧ (∀ h parseMsgId,
        dedupe_checksum h parseMsgId [[97, 98]] "application/octet-stream"
          = h (dedupeMd5Bytes [[97, 98]] buffer0)
        ∧ dedupe_checksum h parseMsgId [[97], [98]] "application/octet-stream"
          = h (dedupeMd5Bytes [[97], [98]] buffer0))
    ∧ dedupeMd5Bytes [[97, 98]] buffer0 ≠ dedupeMd5Bytes [[97], [98]] buffer0 := by
  refine ⟨rfl, fun h parseMsgId => ⟨rfl, rfl⟩, ?_⟩
  intro hEq
  have hMB : MB = 1000000 := rfl
  have hbuf0 : buffer0.length = MB := by rw [buffer0, List.length_replicate]
  have h1 : (dedupeMd5Bytes [[97, 98]] buffer0).length = 1 * MB := by
    refine dedupeMd5Bytes_length _ _ hbuf0 ?_
    intro c hc
    rw [List.mem_singleton] at hc
    subst hc
    decide
  have h2 : (dedupeMd5Bytes [[97], [98]] buffer0).length = 2 * MB := by
    refine dedupeMd5Bytes_length _ _ hbuf0 ?_
    intro c hc
    cases hc with
    | head => decide
    | tail _ hc2 =>
      cases hc2 with
      | head => decide
      | tail _ hc3 => cases hc3
  rw [hEq, h2] at h1
  omega

/-! ## Streaming I/O (`processing/src/io/mod.rs`) -/

theorem flatten_cursorChunksAux (fuel : Nat) (B : List Nat) (h : B.length ≤ fuel) :
    (cursorChunksAux fuel B).flatten = B := by
  induction fuel generalizing B with
  | zero =>
    have hB : B = [] := List.length_eq_zero.mp (Nat.le_zero.mp h)
    subst hB
    rfl
  | succ fuel ih =>
    cases B with
    | nil => rfl
    | cons b bs =>
      have hMBpos : 0 < MB := by decide
      have hfuel : ((b :: bs).drop MB).length ≤ fuel := by
        rw [List.length_drop, List.length_cons]
        rw [List.length_cons] at h
        omega
      show (((b :: bs).take MB) :: cursorChunksAux fuel ((b :: bs).drop MB)).flatten = b :: bs
      rw [List.flatten_cons, ih _ hfuel, List.take_append_drop]

theorem cursorChunks_flatten (B : List Nat) : (cursorChunks B).flatten = B :=
  flatten_cursorChunksAux B.length B (Nat.le_refl _)

/-- The chunks sent into the channel by the `read_to_stream` pumping future
(`processing/src/io/mod.rs:47-67`): the loop reads into the reused 1 MB
buffer and sends `Bytes::copy_from_slice(&buf[..bytes_read])` — exactly the
bytes just read, unlike `dedupe_md5`. -/
def readToStreamSent : List (List Nat) → List Nat → List (List Nat)
  | [], _ => []
  | c :: cs, buf =>
    let buf' := c ++ buf.drop c.length
    buf'.take c.length :: readToStreamSent cs buf'

theorem readToStreamSent_eq (cs : List (List Nat)) (buf : List Nat) :
    readToStreamSent cs buf = cs := by
  induction cs generalizing buf with
  | nil => rfl
  | cons c cs ih =>
    show (c ++ buf.drop c.length).take c.length :: readToStreamSent cs (c ++ buf.drop c.length)
        = c :: cs
    rw [List.take_left, ih]

/-- The in-memory spill threshold `const THRESHOLD: usize = MB as usize`. -/
def THRESHOLD : Nat := MB

/-- The `Read`-shaped handle returned by `stream_to_read`: a `Cursor` over an
in-memory `Vec` or a rewound spilled temp file. -/
inductive SyncReader where
  | mem (data : List Nat)
  | file (data : List Nat)
deriving DecidableEq

/-- All bytes readable from the returned handle. -/
def SyncReader.readAll : SyncReader → List Nat
  | .mem data => data
  | .file data => data

/-- `stream_remaining_to_file` (`processing/src/io/mod.rs:130-144`): copy the
already-read bytes to a temp file, append every remaining stream chunk,
flush and rewind. -/
def stream_remaining_to_file (rest : List (List Nat)) (data_read : List Nat) : SyncReader :=
  .file (data_read ++ rest.flatten)

/-- `stream_to_read` (`processing/src/io/mod.rs:114-127`): accumulate chunks
in memory; as soon as the accumulated length reaches `THRESHOLD`, spill the
rest to a temp file. -/
def stream_to_read : List (List Nat) → List Nat → SyncReader
  | [], data => .mem data
  | c :: cs, data =>
    let data' := data ++ c
    if THRESHOLD ≤ data'.length then stream_remaining_to_file cs data'
    else stream_to_read cs data'

theorem stream_to_read_cons (c : List Nat) (cs : List (List Nat)) (data : List Nat) :
    stream_to_read (c :: cs) data
      = if THRESHOLD ≤ (data ++ c).length then stream_remaining_to_file cs (data ++ c)
        else stream_to_read cs (data ++ c) := rfl

theorem stream_to_read_readAll (cs : List (List Nat)) (data : List Nat) :
    (stream_to_read cs data).readAll = data ++ cs.flatten := by
  induction cs generalizing data with
  | nil => simp [stream_to_read, SyncReader.readAll]
  | cons c cs ih =>
    rw [stream_to_read_cons]
    by_cases hth : THRESHOLD ≤ (data ++ c).length
    · rw [if_pos hth]
      simp [stream_remaining_to_file, SyncReader.readAll]
    · rw [if_neg hth, ih]
      simp

/-- C9: round-trip of the streaming I/O layer.  Pumping a cursor over `B`
through `read_to_stream` sends exactly the chunks the cursor delivers, so
collecting the stream yields `B`; feeding that stream to `stream_to_read`
yields a reader whose full contents are again `B`, staying in memory below
the spill threshold and spilling to a file (order-preservingly) at or above
it.  The threshold in the source is `bytesize::MB` = 10^6 bytes. -/
theorem read_stream_read_roundtrip (B : List Nat) :
    (readToStreamSent (cursorChunks B) buffer0).flatten = B
    ∧ (stream_to_read (readToStreamSent (cursorChunks B) buffer0) []).readAll = B
    ∧ (B.length < THRESHOLD → stream_to_read (cursorChunks B) [] = SyncReader.mem B)
    ∧ (THRESHOLD ≤ B.length → stream_to_read (cursorChunks B) [] = SyncReader.file B) := by
  refine ⟨?_, ?_, ?_, ?_⟩
  · rw [readToStreamSent_eq, cursorChunks_flatten]
  · rw [readToStreamSent_eq, stream_to_read_readAll, List.nil_append, cursorChunks_flatten]
  · intro hlt
    cases B with
    | nil => rfl
    | cons b bs =>
      have hle : (b :: bs).length ≤ MB := Nat.le_of_lt hlt
      rw [cursorChunks_single _ (by simp) hle, stream_to_read_cons, List.nil_append,
        if_neg (Nat.not_le_of_lt hlt)]
      rfl
  · intro hge
    cases B with
    | nil =>
      exfalso
      have hth : THRESHOLD = 1000000 := rfl
      simp only [List.length_nil, Nat.le_zero] at hge
      omega
    | cons b bs =>
      have hch : cursorChunks (b :: bs)
          = ((b :: bs).take MB) :: cursorChunksAux bs.length ((b :: bs).drop MB) := by
        rw [cursorChunks, List.length_cons]
        rfl
      have hMBpos : 0 < MB := by decide
      have hMBle : MB ≤ (b :: bs).length := hge
      have htake : ([] ++ (b :: bs).take MB).length = MB := by
        rw [List.nil_append, List.length_take]
        omega
      have hrest : (cursorChunksAux bs.length ((b :: bs).drop MB)).flatten
          = (b :: bs).drop MB := by
        refine flatten_cursorChunksAux _ _ ?_
        rw [List.length_drop, List.length_cons]
        rw [List.length_cons] at hMBle
        omega
      have hcond : THRESHOLD ≤ MB := by decide
      rw [hch, stream_to_read_cons, htake, if_pos hcond]
      rw [stream_remaining_to_file, hrest, List.nil_append, List.take_append_drop]

/-- Witness instantiating the two threshold-conditioned conjuncts of
`read_stream_read_roundtrip` at concrete inputs on both sides of the
threshold. -/
theorem read_stream_read_roundtrip_witness :
    (([5] : List Nat).length < THRESHOLD
      ∧ stream_to_read (cursorChunks [5]) [] = SyncReader.mem [5])
    ∧ (THRESHOLD ≤ (List.replicate MB 7).length
      ∧ stream_to_read (cursorChunks (List.replicate MB 7)) []
          = SyncReader.file (List.replicate MB 7)) :=
  ⟨⟨by decide, (read_stream_read_roundtrip [5]).2.2.1 (by decide)⟩,
   ⟨by rw [List.length_replicate]; decide, by
      refine (read_stream_read_roundtrip _).2.2.2 ?_
      rw [List.length_replicate]; decide⟩⟩

/-! ## Archive Builder (`services/src/archive_builder.rs`) -/

/-- An `ArchiveEntry` (`services/src/archive_builder.rs:10-20`); the owned
temp path is modelled by the bytes readable from the file it points to. -/
structure ArchiveEntry where
  name : String
  path : List Nat
  id_chain : List String
deriving DecidableEq

/-- One record written into the ZIP stream: `zipper.add_directory` writes an
explicit directory record, `zipper.start_file` followed by the 1 MB copy
loop writes a file record. -/
inductive ZipRecord where
  | dir (path : String)
  | file (path : String) (contents : List Nat)
deriving DecidableEq

/-- Whether a ZIP record is an explicit directory record. -/
def ZipRecord.isDir : ZipRecord → Bool
  | .dir _ => true
  | .file _ _ => false

/-- `PathBuf` rendering of a sequence of pushed components. -/
def joinPath : List String → String
  | [] => ""
  | [s] => s
  | s :: rest => s ++ "/" ++ joinPath rest

/-- `ArchiveBuilder::archive_entry_path` (`archive_builder.rs:70-77`): push
every dedupe id of the chain, then the name. -/
def archive_entry_path (embedded_dupe_chain : List String) (name : String) : String :=
  joinPath (embedded_dupe_chain ++ [name])

/-- The `ArchiveBuilder` state (`archive_builder.rs:22-37`): the ZIP writer
(as the list of records written so far), the number of appended entries, and
the temp path of the most recently appended entry. -/
structure ArchiveBuilder where
  zipper : List ZipRecord
  size : Nat
  current_path : Option (List Nat)
deriving DecidableEq

/-- `ArchiveBuilder::new` (`archive_builder.rs:28-37`). -/
def ArchiveBuilder.new : ArchiveBuilder :=
  { zipper := [], size := 0, current_path := none }

/-- `ArchiveBuilder::append` (`archive_builder.rs:39-55`): compute the entry
path and its parent, call `add_directory(parent)`, then `start_file(path)`
and stream the entry's temp file; finally remember the entry path and bump
`size`.  (The parent of `chain ++ [name]` is the joined chain.) -/
def ArchiveBuilder.append (b : ArchiveBuilder) (entry : ArchiveEntry) : ArchiveBuilder :=
  { zipper := b.zipper
      ++ [ZipRecord.dir (joinPath entry.id_chain),
          ZipRecord.file (archive_entry_path entry.id_chain entry.name) entry.path],
    size := b.size + 1,
    current_path := some entry.path }

/-- The file returned by `build`: either the raw temp file of a single entry
(`File::open(path)`) or the finalized, rewound ZIP stream
(`zipper.finish()`). -/
inductive BuiltFile where
  | raw (contents : List Nat)
  | zipped (records : List ZipRecord)
deriving DecidableEq

/-- Whether `build` actually finalized and returned the ZIP stream. -/
def BuiltFile.isFinalizedZip : BuiltFile → Bool
  | .raw _ => false
  | .zipped _ => true

/-- `ArchiveBuilder::build` (`archive_builder.rs:57-68`): `// Return the file
if there is only one entry.` — with exactly one appended entry it returns
`File::open` of that entry's own temp path without finalizing the ZIP;
otherwise it finishes the ZIP writer, rewinds and returns the archive. -/
def ArchiveBuilder.build (b : ArchiveBuilder) : BuiltFile :=
  if b.size = 1 then
    match b.current_path with
    | some path => .raw path
    | none => .zipped b.zipper
  else .zipped b.zipper

/-- Append a sequence of entries in order (the `build_archive` receive loop,
`processing/src/lib.rs:194-201`). -/
def ArchiveBuilder.appendAll (b : ArchiveBuilder) : List ArchiveEntry → ArchiveBuilder
  | [] => b
  | e :: es => (b.append e).appendAll es

theorem size_appendAll (entries : List ArchiveEntry) (b : ArchiveBuilder) :
    (b.appendAll entries).size = b.size + entries.length := by
  induction entries generalizing b with
  | nil => simp [ArchiveBuilder.appendAll]
  | cons e es ih =>
    show ((b.append e).appendAll es).size = _
    rw [ih]
    simp [ArchiveBuilder.append]
    omega

/-- C2 counterexample: after appending exactly one entry, `build` returns the
raw temp file of that entry (here with contents `[1, 2, 3]`), not a
finalized ZIP archive. -/
theorem build_single_entry_returns_raw_file :
    (ArchiveBuilder.appendAll ArchiveBuilder.new [⟨"extracted.txt", [1, 2, 3], []⟩]).build
      = BuiltFile.raw [1, 2, 3]
    ∧ (ArchiveBuilder.appendAll ArchiveBuilder.new
        [⟨"extracted.txt", [1, 2, 3], []⟩]).build.isFinalizedZip = false :=
  ⟨rfl, rfl⟩

/-- C2 amended: for every number of appended entries other than exactly one,
`build` finalizes and returns the ZIP; with exactly one appended entry it
returns that entry's own raw temp file instead. -/
theorem build_finalizes_unless_single_entry :
    (∀ entries : List ArchiveEntry, entries.length ≠ 1 →
      (ArchiveBuilder.new.appendAll entries).build
        = BuiltFile.zipped (ArchiveBuilder.new.appendAll entries).zipper)
    ∧ ∀ e : ArchiveEntry,
      (ArchiveBuilder.new.appendAll [e]).build = BuiltFile.raw e.path := by
  constructor
  · intro entries h
    have hsize : (ArchiveBuilder.new.appendAll entries).size = entries.length := by
      rw [size_appendAll]
      simp [ArchiveBuilder.new]
    rw [ArchiveBuilder.build, if_neg (by rw [hsize]; exact h)]
  · intro e
    rfl

/-- Witness for `build_finalizes_unless_single_entry` at the empty entry
sequence. -/
theorem build_finalizes_unless_single_entry_witness :
    (([] : List ArchiveEntry).length ≠ 1)
    ∧ (ArchiveBuilder.new.appendAll ([] : List ArchiveEntry)).build
        = BuiltFile.zipped (ArchiveBuilder.new.appendAll ([] : List ArchiveEntry)).zipper :=
  ⟨by decide, build_finalizes_unless_single_entry.1 [] (by decide)⟩

/-- C7 counterexample: a single `append` writes an explicit directory record
(`add_directory` of the joined parent chain) into the ZIP stream before the
file record. -/
theorem append_writes_explicit_directory_record :
    (ArchiveBuilder.new.append ⟨"file.bin", [7], ["abc"]⟩).zipper
      = [ZipRecord.dir "abc", ZipRecord.file "abc/file.bin" [7]]
    ∧ ((ArchiveBuilder.new.append ⟨"file.bin", [7], ["abc"]⟩).zipper.any ZipRecord.isDir)
        = true := by
  refine ⟨?_, ?_⟩ <;> decide

/-- C7 amended: the ZIP stream contains exactly one explicit directory record
per appended entry (the `add_directory(parent)` call in `append`), rather
than none. -/
theorem appendAll_writes_one_directory_record_per_entry (entries : List ArchiveEntry) :
    ((ArchiveBuilder.new.appendAll entries).zipper.countP ZipRecord.isDir)
      = entries.length := by
  suffices h : ∀ (b : ArchiveBuilder) (es : List ArchiveEntry),
      ((b.appendAll es).zipper.countP ZipRecord.isDir)
        = b.zipper.countP ZipRecord.isDir + es.length by
    have := h ArchiveBuilder.new entries
    simpa [ArchiveBuilder.new] using this
  intro b es
  induction es generalizing b with
  | nil => simp [ArchiveBuilder.appendAll]
  | cons e es ih =>
    show ((b.append e).appendAll es).zipper.countP ZipRecord.isDir = _
    rw [ih]
    simp [ArchiveBuilder.append, List.countP_append, List.countP_cons, ZipRecord.isDir]
    omega

/-! ## Processing data model (`processing/src/processing/mod.rs`) -/

/-- `ProcessType`.  The crate's `mod.rs` revision in the tree lists `Text`,
`Metadata`, `Pdf`; `Processor::determine_processors` additionally matches an
`Embedded` variant, which is therefore included. -/
inductive ProcessType where
  | Text
  | Metadata
  | Pdf
  | Embedded
deriving DecidableEq, BEq

/-- `ProcessState` (`processing/src/processing/mod.rs`): the chain of dedupe
ids from the root input down to the current file. -/
structure ProcessState where
  id_chain : List String
deriving DecidableEq

/-- `ProcessContext` minus the output channel handle; a processor's sends
into the channel are modelled by the list of results it returns. -/
structure ProcessContext where
  mimetype : String
  types : List ProcessType
  state : ProcessState
deriving DecidableEq

/-- `ProcessOutputData`; the owned temp path is modelled by the bytes of the
file it points to.  `processing/src/processing/mod.rs` names the dedupe
field `dedupe_id` (the `lib.rs` revision in the tree reads it as
`checksum`). -/
structure ProcessOutputData where
  name : String
  contents : List Nat
  mimetype : String
  types : List ProcessType
  dedupe_id : String
deriving DecidableEq

/-- `ProcessOutput`.  The source's `Embedded` variant carries one extra
field, the cloned output sink (a shared channel handle with no observable
state), omitted here. -/
inductive ProcessOutput where
  | Processed (state : ProcessState) (data : ProcessOutputData)
  | Embedded (state : ProcessState) (data : ProcessOutputData)
deriving DecidableEq

/-- `ProcessOutput::processed`. -/
def ProcessOutput.processed (ctx : ProcessContext) (name : String) (contents : List Nat)
    (mimetype : String) (dedupe_id : String) : ProcessOutput :=
  .Processed ctx.state ⟨name, contents, mimetype, ctx.types, dedupe_id⟩

/-- `ProcessOutput::embedded`. -/
def ProcessOutput.embedded (ctx : ProcessContext) (name : String) (contents : List Nat)
    (mimetype : String) (dedupe_id : String) : ProcessOutput :=
  .Embedded ctx.state ⟨name, contents, mimetype, ctx.types, dedupe_id⟩

/-! ## Processor dispatcher (`processing/src/processing/processor.rs`) -/

/-- `ProcessingError` (`processor.rs:26-35`). -/
inductive ProcessingError where
  | UnsupportedMimeType (mimetype : String)
  | Unexpected (msg : String)
deriving DecidableEq

/-- `Processor::text_processor` (`processor.rs:145-152`); processors are
identified by their `name()`. -/
def text_processor (mimetype : String) : Option String :=
  match mimetype with
  | "application/zip" | "application/mbox" => none
  | _ => some "Default Text"

/-- `Processor::metadata_processor` (`processor.rs:154-158`). -/
def metadata_processor (_ : String) : Option String :=
  some "Default Metadata"

/-- `Processor::pdf_processor` (`processor.rs:160-166`). -/
def pdf_processor (mimetype : String) : Option String :=
  match mimetype with
  | "message/rfc822" => some "RFC 822 PDF"
  | _ => none

/-- `Processor::embedded_processor` (`processor.rs:168-176`). -/
def embedded_processor (mimetype : String) : Option String :=
  match mimetype with
  | "application/zip" => some "zip"
  | "application/mbox" => some "Mbox Embedded"
  | "message/rfc822" => some "RFC 822 Embedded"
  | _ => none

/-- `Processor::determine_processors` (`processor.rs:118-143`): push the
text, metadata, pdf and embedded processors in that order, each only when
its `ProcessType` was requested and the per-kind lookup is `Some`. -/
def determine_processors (mimetype : String) (types : List ProcessType) : List String :=
  (if types.contains ProcessType.Text then (text_processor mimetype).toList else [])
  ++ (if types.contains ProcessType.Metadata then (metadata_processor mimetype).toList else [])
  ++ (if types.contains ProcessType.Pdf then (pdf_processor mimetype).toList else [])
  ++ (if types.contains ProcessType.Embedded then (embedded_processor mimetype).toList else [])

/-- `try_join_all` over the chosen processors' futures (parameter `run`
yields each processor's outcome): succeeds iff every run succeeds, otherwise
yields a failing run's error (the first in list order). -/
def runProcessors (run : String → Except String Unit) : List String → Except String Unit
  | [] => .ok ()
  | p :: ps =>
    match run p with
    | .error e => .error e
    | .ok _ => runProcessors run ps

/-- `Processor::process` (`processor.rs:94-116`): compute the dedupe checksum
of the input (parameter `checksumResult`; a failure is mapped to
`Unexpected`), collect the registered processors for `(mimetype, types)`,
run them all, and map any failure to `Unexpected`. -/
def Processor.process (checksumResult : Except String String)
    (run : String → Except String Unit) (mimetype : String) (types : List ProcessType) :
    Except ProcessingError Unit :=
  match checksumResult with
  | .error e => .error (.Unexpected e)
  | .ok _ =>
    match runProcessors run (determine_processors mimetype types) with
    | .error e => .error (.Unexpected e)
    | .ok _ => .ok ()

/-- C4 counterexample: for the MIME type "application/x-unknown" with only
`Pdf` requested, no processor is registered, yet `Processor::process`
succeeds with `Ok(())` instead of failing with
`UnsupportedMimeType("application/x-unknown")`. -/
theorem process_unknown_mime_returns_ok :
    determine_processors "application/x-unknown" [ProcessType.Pdf] = []
    ∧ Processor.process (.ok "c") (fun _ => .ok ()) "application/x-unknown"
        [ProcessType.Pdf] = .ok ()
    ∧ (Except.ok () : Except ProcessingError Unit)
        ≠ .error (.UnsupportedMimeType "application/x-unknown") :=
  ⟨rfl, rfl, by simp⟩

/-- C4 amended: when no processor is registered for `(mimetype, types)` the
dispatcher succeeds with `Ok(())` (provided the checksum computation
succeeds); `UnsupportedMimeType` is never returned by `Processor::process`
for any input. -/
theorem process_never_returns_unsupported_mime :
    (∀ (mimetype : String) (types : List ProcessType) (run : String → Except String Unit)
        (c : String), determine_processors mimetype types = [] →
      Processor.process (.ok c) run mimetype types = .ok ())
    ∧ ∀ (checksumResult : Except String String) (run : String → Except String Unit)
        (mimetype : String) (types : List ProcessType) (m : String),
      Processor.process checksumResult run mimetype types
        ≠ .error (.UnsupportedMimeType m) := by
  constructor
  · intro mimetype types run c h
    simp [Processor.process, h, runProcessors]
  · intro checksumResult run mimetype types m h
    cases checksumResult with
    | error e => simp [Processor.process] at h
    | ok c =>
      cases hr : runProcessors run (determine_processors mimetype types) with
      | error e => simp [Processor.process, hr] at h
      | ok u => simp [Processor.process, hr] at h

/-- Witness for `process_never_returns_unsupported_mime` with an empty
requested-kind set. -/
theorem process_never_returns_unsupported_mime_witness :
    determine_processors "text/plain" [] = []
    ∧ Processor.process (.ok "c") (fun _ => .ok ()) "text/plain" [] = .ok () :=
  ⟨rfl, process_never_returns_unsupported_mime.1 "text/plain" [] (fun _ => .ok ()) "c" rfl⟩

/-! ## Mbox embedded processor (`processing/src/embedded/mbox.rs`) -/

/-- `MboxEmbeddedProcessor::process_message` (`mbox.rs:24-45`): write the
message contents to a fresh temp file, fix the MIME to "message/rfc822",
clone the context with that MIME, compute the dedupe checksum over a cursor
of the contents, and build an `Embedded` output named "mbox-message.eml".
(The temp-file I/O, the model's only elided failure source, is assumed to
succeed.) -/
def process_message (h : List Nat → String) (parseMsgId : List Nat → Option (List Nat))
    (ctx : ProcessContext) (contents : List Nat) : ProcessOutput :=
  let mimetype := "message/rfc822"
  let ctx' : ProcessContext := { ctx with mimetype := mimetype }
  let checksum := dedupe_checksum h parseMsgId (cursorChunks contents) mimetype
  ProcessOutput.embedded ctx' "mbox-message.eml" contents mimetype checksum

/-- The observable behaviour of one `MboxEmbeddedProcessor::process` run:
what was sent into the output channel, and the value the function
returned. -/
structure MboxRun where
  outputs : List (Except String ProcessOutput)
  result : Except String Unit

/-- `MboxEmbeddedProcessor::process` (`mbox.rs:49-72`) over the message
iterator's items, each a parse result carrying the raw message bytes: a
parse failure is formatted, logged and returned with `?` — aborting the
loop — while a parsed message is processed and the result sent into the
channel via `ctx.add_output`. -/
def mboxProcess (h : List Nat → String) (parseMsgId : List Nat → Option (List Nat))
    (ctx : ProcessContext) : List (Except String (List Nat)) → MboxRun
  | [] => ⟨[], .ok ()⟩
  | .error e :: _ => ⟨[], .error ("failed to parse message from mbox: " ++ e)⟩
  | .ok msg :: rest =>
    let r := mboxProcess h parseMsgId ctx rest
    ⟨.ok (process_message h parseMsgId ctx msg) :: r.outputs, r.result⟩

theorem mboxProcess_ok_cons (h : List Nat → String)
    (parseMsgId : List Nat → Option (List Nat)) (ctx : ProcessContext)
    (msg : List Nat) (rest : List (Except String (List Nat))) :
    mboxProcess h parseMsgId ctx (.ok msg :: rest)
      = ⟨.ok (process_message h parseMsgId ctx msg)
            :: (mboxProcess h parseMsgId ctx rest).outputs,
         (mboxProcess h parseMsgId ctx rest).result⟩ := rfl

/-- C5 counterexample: a three-item mbox whose second message fails to
parse.  The claim expects the parse failure to be sent into the channel and
the third message still processed, with `process` returning success; the
code instead returns the error from `process`, sends nothing for the failing
message, and never reaches the third. -/
theorem mbox_parse_failure_aborts_processor :
    (mboxProcess (fun _ => "h") (fun _ => none) ⟨"application/mbox", [], ⟨[]⟩⟩
        [.ok [49], .error "bad", .ok [50]]).result
      = .error "failed to parse message from mbox: bad"
    ∧ (mboxProcess (fun _ => "h") (fun _ => none) ⟨"application/mbox", [], ⟨[]⟩⟩
        [.ok [49], .error "bad", .ok [50]]).outputs.length = 1
    ∧ (mboxProcess (fun _ => "h") (fun _ => none) ⟨"application/mbox", [], ⟨[]⟩⟩
        [.ok [49], .error "bad", .ok [50]]).result ≠ .ok () := by
  refine ⟨rfl, rfl, ?_⟩
  intro hEq
  rw [show (mboxProcess (fun _ => "h") (fun _ => none) ⟨"application/mbox", [], ⟨[]⟩⟩
      [.ok [49], .error "bad", .ok [50]]).result
    = Except.error "failed to parse message from mbox: bad" from rfl] at hEq
  exact Except.noConfusion hEq

/-- C5 amended: a per-message parse failure aborts the mbox processor —
`process` returns the formatted error, the failure is not sent into the
output channel, and later messages are not processed; every message before
the first parse failure yields exactly one `Embedded`
"message/rfc822" output. -/
theorem mbox_process_spec (h : List Nat → String)
    (parseMsgId : List Nat → Option (List Nat)) (ctx : ProcessContext) :
    (∀ (pre : List (List Nat)) (e : String) (rest : List (Except String (List Nat))),
      mboxProcess h parseMsgId ctx (pre.map Except.ok ++ .error e :: rest)
        = ⟨pre.map (fun m => .ok (process_message h parseMsgId ctx m)),
           .error ("failed to parse message from mbox: " ++ e)⟩)
    ∧ ∀ msgs : List (List Nat),
      mboxProcess h parseMsgId ctx (msgs.map Except.ok)
        = ⟨msgs.map (fun m => .ok (process_message h parseMsgId ctx m)), .ok ()⟩ := by
  constructor
  · intro pre e rest
    induction pre with
    | nil => rfl
    | cons m ms ih =>
      rw [List.map_cons, List.cons_append, mboxProcess_ok_cons, ih]
      rfl
  · intro msgs
    induction msgs with
    | nil => rfl
    | cons m ms ih =>
      rw [List.map_cons, mboxProcess_ok_cons, ih]
      rfl

/-! ## Metadata processor (`processing/src/metadata/mod.rs`) and
RFC 822 PDF processor (`processing/src/pdf/rfc822/mod.rs`) -/

/-- `DefaultMetadataProcessor::process` (`metadata/mod.rs:12-31`): when an
output path was allocated, fetch metadata from Tika (parameter
`tikaMetadata`), write it to the path, and send the result —
`Processed(name="metadata.json", mimetype="embedded/json")` on success —
into the channel; the function itself returns `Ok(())`. -/
def DefaultMetadataProcessor.process (ctx : ProcessContext)
    (tikaMetadata : Except String (List Nat)) (outputPath : Option Unit)
    (checksum : String) : List (Except String ProcessOutput) × Except String Unit :=
  match outputPath with
  | none => ([], .ok ())
  | some _ =>
    match tikaMetadata with
    | .error e => ([.error e], .ok ())
    | .ok md =>
      ([.ok (ProcessOutput.processed ctx "metadata.json" md "embedded/json" checksum)],
       .ok ())

/-- `Rfc822PdfProcessor::process` (`pdf/rfc822/mod.rs:26-47`): parse the
message (parameter `parsed`; `None` aborts with "Failed to parse message"
before anything is sent), render it to PDF through the HTML pipeline
(parameter `rendered`: the PDF bytes written to the output file, or the
renderer's error), and send the result — `Processed(name="rendered.pdf",
mimetype="embedded/pdf")` on success — into the channel. -/
def Rfc822PdfProcessor.process (ctx : ProcessContext) (parsed : Option Unit)
    (rendered : Except String (List Nat)) (checksum : String) :
    List (Except String ProcessOutput) × Except String Unit :=
  match parsed with
  | none => ([], .error "Failed to parse message")
  | some _ =>
    match rendered with
    | .error e => ([.error e], .ok ())
    | .ok pdf =>
      ([.ok (ProcessOutput.processed ctx "rendered.pdf" pdf "embedded/pdf" checksum)],
       .ok ())

/-- C6 counterexample: the metadata processor emits
`Processed("metadata.json", mimetype="embedded/json")` — not
"application/json" — and the PDF processor emits
`Processed("rendered.pdf", mimetype="embedded/pdf")` — not
"application/pdf". -/
theorem rfc822_processed_mimetypes_counterexample :
    (DefaultMetadataProcessor.process ⟨"message/rfc822", [], ⟨[]⟩⟩ (.ok [123]) (some ()) "c").1
      = [.ok (ProcessOutput.Processed ⟨[]⟩ ⟨"metadata.json", [123], "embedded/json", [], "c"⟩)]
    ∧ ("embedded/json" : String) ≠ "application/json"
    ∧ (Rfc822PdfProcessor.process ⟨"message/rfc822", [], ⟨[]⟩⟩ (some ()) (.ok [37]) "c").1
      = [.ok (ProcessOutput.Processed ⟨[]⟩ ⟨"rendered.pdf", [37], "embedded/pdf", [], "c"⟩)]
    ∧ ("embedded/pdf" : String) ≠ "application/pdf" :=
  ⟨rfl, by decide, rfl, by decide⟩

/-- C6 amended: for a message/rfc822 input, the Metadata kind produces a
`Processed` output named "metadata.json" with mimetype "embedded/json", and
the Pdf kind a `Processed` output named "rendered.pdf" with mimetype
"embedded/pdf" (and both processor runs return `Ok`). -/
theorem rfc822_processed_names_and_mimetypes (ctx : ProcessContext)
    (md pdf : List Nat) (c : String) :
    DefaultMetadataProcessor.process ctx (.ok md) (some ()) c
      = ([.ok (ProcessOutput.processed ctx "metadata.json" md "embedded/json" c)], .ok ())
    ∧ Rfc822PdfProcessor.process ctx (some ()) (.ok pdf) c
      = ([.ok (ProcessOutput.processed ctx "rendered.pdf" pdf "embedded/pdf" c)], .ok ()) :=
  ⟨rfl, rfl⟩

/-! ## Recursive output handling (`processing/src/lib.rs:147-173`) -/

/-- `handle_process_output_recursively`: a `Processed` output becomes an
archive entry at the producing chain; an `Embedded` output extends the chain
with the child's checksum, re-enters the processor on the embedded file with
a child context built from the output's mimetype, types and the extended
chain (parameter `recurse` is `processor().process`; an `Err` from it is
only logged with `warn!`), and still becomes an archive entry at the
extended chain. -/
def handle_process_output_recursively
    (recurse : ProcessContext → List Nat → Except String Unit) :
    ProcessOutput → Except String ArchiveEntry
  | .Processed state data => .ok ⟨data.name, data.contents, state.id_chain⟩
  | .Embedded state data =>
    let id_chain := state.id_chain ++ [data.dedupe_id]
    let ctx : ProcessContext := ⟨data.mimetype, data.types, ⟨id_chain⟩⟩
    match recurse ctx data.contents with
    | .error _ => .ok ⟨data.name, data.contents, id_chain⟩
    | .ok _ => .ok ⟨data.name, data.contents, id_chain⟩

/-- C8: even when recursively processing the embedded file fails, the
handler still returns (to be sent to the archive sink) the `ArchiveEntry`
for the embedded file itself, with the output's name and path and with
`id_chain` equal to the parent chain extended by the child's checksum; the
error does not propagate. -/
theorem embedded_archive_entry_despite_recursive_error
    (recurse : ProcessContext → List Nat → Except String Unit)
    (state : ProcessState) (data : ProcessOutputData) (e : String)
    (herr : recurse ⟨data.mimetype, data.types, ⟨state.id_chain ++ [data.dedupe_id]⟩⟩
        data.contents = .error e) :
    handle_process_output_recursively recurse (.Embedded state data)
      = .ok ⟨data.name, data.contents, state.id_chain ++ [data.dedupe_id]⟩ := by
  simp [handle_process_output_recursively, herr]

/-- Witness for `embedded_archive_entry_despite_recursive_error`: a recursive
processor that always fails, applied to a concrete embedded output. -/
theorem embedded_archive_entry_despite_recursive_error_witness :
    ((fun (_ : ProcessContext) (_ : List Nat) => (Except.error "boom" : Except String Unit))
        ⟨"application/zip", [], ⟨["root", "child"]⟩⟩ [9] = Except.error "boom")
    ∧ handle_process_output_recursively (fun _ _ => .error "boom")
        (.Embedded ⟨["root"]⟩ ⟨"evil.zip", [9], "application/zip", [], "child"⟩)
      = .ok ⟨"evil.zip", [9], ["root", "child"]⟩ :=
  ⟨rfl, embedded_archive_entry_despite_recursive_error (fun _ _ => .error "boom")
    ⟨["root"]⟩ ⟨"evil.zip", [9], "application/zip", [], "child"⟩ "boom" rfl⟩

/-! ## MIME identification (`identify/src/mimetype.rs`) and the ZIP
embedded processor (`processing/src/embedded/zip.rs`) -/

/-- `identify_using_file_format` (`mimetype.rs:34-44`): the magic-byte
detector always yields a media type (parameter `formatMediaType`, the value
of `FileFormat::from_bytes(..).media_type()`, which defaults to
"application/octet-stream"); it counts as an identification only when it is
not "application/octet-stream". -/
def identify_using_file_format (formatMediaType : String) : Option String :=
  if formatMediaType ≠ "application/octet-stream" then some formatMediaType else none

/-- `identify_using_tika` (`mimetype.rs:46-51`), over the MIME string Tika
detected. -/
def identify_using_tika (tikaMimetype : String) : Option String :=
  if tikaMimetype ≠ "application/octet-stream" then some tikaMimetype else none

/-- `identify_mimetype` (`mimetype.rs:17-32`): try magic bytes first; when
that yields nothing, rewind and ask Tika (parameter `tikaDetect`; its
failure propagates); `Ok(None)` when neither detector identifies the
content. -/
def identify_mimetype (formatMediaType : String) (tikaDetect : Except String String) :
    Except String (Option String) :=
  match identify_using_file_format formatMediaType with
  | some m => .ok (some m)
  | none =>
    match tikaDetect with
    | .error e => .error e
    | .ok t => .ok (identify_using_tika t)

/-- Modelled from the spec: `dedupe_checksum_from_path` is declared in the
`identify` crate but absent from the tree (only its callers `zip.rs:97` and
`processor.rs:99` are present); per §4.2, `fingerprint(reader, mimetype)`
over the file at a path is `dedupe_checksum` applied to a reader of that
file's bytes under the given MIME. -/
def dedupe_checksum_from_path (h : List Nat → String)
    (parseMsgId : List Nat → Option (List Nat)) (contents : List Nat)
    (mimetype : String) : String :=
  dedupe_checksum h parseMsgId (cursorChunks contents) mimetype

/-- `NextArchiveEntry` and the inner `ArchiveEntry` of `zip.rs:18-28`. -/
inductive NextArchiveEntry where
  | Dir (name : String)
  | File (name : String) (contents : List Nat) (checksum : String) (mimetype : String)
deriving DecidableEq

/-- `next_archive_entry` (`zip.rs:76-100`): resolve the member's file name
(failing with an error when there is none), pass directories through, spool
the member's bytes to a temp file, identify the MIME — magic bytes, then
Tika — falling back to the literal "embedded/octet-stream", and compute the
dedupe checksum of the spooled file under that MIME. -/
def next_archive_entry (h : List Nat → String)
    (parseMsgId : List Nat → Option (List Nat)) (entryName : Option String)
    (isDir : Bool) (contents : List Nat) (formatMediaType : String)
    (tikaDetect : Except String String) : Except String NextArchiveEntry :=
  match entryName with
  | none => .error "failed to get name for zip entry"
  | some name =>
    if isDir then .ok (.Dir name)
    else
      match identify_mimetype formatMediaType tikaDetect with
      | .error e => .error e
      | .ok res =>
        let mimetype := res.getD "embedded/octet-stream"
        .ok (.File name contents
          (dedupe_checksum_from_path h parseMsgId contents mimetype) mimetype)

/-- The `Embedded` output the ZIP processor sends for a `File` entry
(`zip.rs:56-62`); directory entries only produce a debug log. -/
def zipEmitOutput (ctx : ProcessContext) : NextArchiveEntry → Option ProcessOutput
  | .Dir _ => none
  | .File name contents checksum mimetype =>
    some (ProcessOutput.embedded ctx name contents mimetype checksum)

/-- C10: when both detectors classify a ZIP member's content as
"application/octet-stream", `identify_mimetype` yields `Ok(None)` and the
ZIP processor falls back to the literal "embedded/octet-stream": that string
is used as the mimetype of the emitted `Embedded` output and is the MIME
passed to the fingerprint computation. -/
theorem zip_octet_stream_fallback_mimetype (h : List Nat → String)
    (parseMsgId : List Nat → Option (List Nat)) (name : String)
    (contents : List Nat) (ctx : ProcessContext) :
    identify_mimetype "application/octet-stream" (.ok "application/octet-stream") = .ok none
    ∧ next_archive_entry h parseMsgId (some name) false contents "application/octet-stream"
        (.ok "application/octet-stream")
      = .ok (.File name contents
          (dedupe_checksum_from_path h parseMsgId contents "embedded/octet-stream")
          "embedded/octet-stream")
    ∧ zipEmitOutput ctx
        (.File name contents
          (dedupe_checksum_from_path h parseMsgId contents "embedded/octet-stream")
          "embedded/octet-stream")
      = some (.Embedded ctx.state
          ⟨name, contents, "embedded/octet-stream", ctx.types,
            dedupe_checksum_from_path h parseMsgId contents "embedded/octet-stream"⟩) :=
  ⟨rfl, rfl, rfl⟩

end RustyProcessing
